import Mathlib

/-!
# Verification of the GAZTank Table-of-Contents engine (`utils/toc/toc.py`)

This file gives a shallow embedding of the TOC engine of the repository:
the slug encoder (`slugify`), the heading indexer (`add_ids_to_headings`),
the hierarchy builder (`build_toc_structure`), the document mutator
(`inject_toc`, `remove_existing_toc`, `remove_ids_from_headings`), the
per-file drivers (`process_html_file`, `strip_toc_from_file`) and the batch
scanner (`scan_html_files`), together with theorems settling the frozen
claims about them.

Python strings are modelled as Lean `String`/`List Char`; parsed HTML
documents (BeautifulSoup trees) as a tree of element/text nodes; file
system effects as explicit parameters and results.
-/

/-! ## Slug Encoder: `slugify` (toc.py lines 32-73) -/

/-- The characters removed by `text.lstrip('0123456789.)]}\t\n\r ')`. -/
def leadingStripSet : List Char :=
  ['0', '1', '2', '3', '4', '5', '6', '7', '8', '9', '.', ')', ']', '}', '\t', '\n', '\r', ' ']

/-- The retained character set of `slugify`
(`set('abcdefghijklmnopqrstuvwxyz0123456789 -_')`). -/
def allowedChars : List Char := "abcdefghijklmnopqrstuvwxyz0123456789 -_".data

/-- Tag-stripping state machine: outside a tag, characters are kept until `<`;
inside a tag, characters are dropped until `>`. -/
def stripTagsAux : Bool → List Char → List Char
  | _, [] => []
  | false, '<' :: rest => stripTagsAux true rest
  | false, c :: rest => c :: stripTagsAux false rest
  | true, '>' :: rest => stripTagsAux false rest
  | true, _ :: rest => stripTagsAux true rest

/-- Model of `BeautifulSoup(text, 'lxml').get_text()` as used by `slugify`:
markup tags are removed and the text content is kept.  On input containing
no `<` character (every input exercised by the claims) the parser returns
the text unchanged, as does this model. -/
def stripTags (l : List Char) : List Char := stripTagsAux false l

/-- One pass of `text.replace('--', '-')`: replaces the non-overlapping
occurrences of `--`, scanning left to right. -/
def pyReplaceDD : List Char → List Char
  | '-' :: '-' :: rest => '-' :: pyReplaceDD rest
  | c :: rest => c :: pyReplaceDD rest
  | [] => []

/-- `'--' in text`. -/
def containsDD : List Char → Bool
  | '-' :: '-' :: _ => true
  | _ :: rest => containsDD rest
  | [] => false

/-- The `while '--' in text: text = text.replace('--', '-')` loop.  The fuel
argument bounds the number of iterations; each iteration strictly shortens
the list (which is also why the Python loop terminates), so fuel equal to
the initial length is never exhausted. -/
def collapseDashes : Nat → List Char → List Char
  | 0, l => l
  | fuel + 1, l => if containsDD l then collapseDashes fuel (pyReplaceDD l) else l

/-- Stages 1-4 of `slugify`: strip markup tags, lowercase
(`Char.toLower` agrees with Python `str.lower()` on ASCII; characters where
the two differ are all discarded by the filter in this same stage), strip
leading numerals/punctuation, and retain only the allowed characters. -/
def slugFiltered (text : String) : List Char :=
  ((((stripTags text.data).map Char.toLower).dropWhile
      (fun c => leadingStripSet.contains c)).filter
    (fun c => allowedChars.contains c))

/-- Stage 5 of `slugify`: `text.replace('_', '-')` then `text.replace(' ', '-')`. -/
def slugHyphens (text : String) : List Char :=
  ((slugFiltered text).map (fun c => if c = '_' then '-' else c)).map
    (fun c => if c = ' ' then '-' else c)

/-- Stage 6 of `slugify`: the hyphen-collapsing `while` loop. -/
def slugCollapsed (text : String) : List Char :=
  collapseDashes (slugHyphens text).length (slugHyphens text)

/-- `slugify` (toc.py lines 32-73): strip markup, lowercase, strip leading
numerals/punctuation, filter to the allowed set, turn `_` and spaces into
hyphens, collapse hyphen runs, and finally `text.strip('-')`: drop hyphens
at both ends. -/
def slugify (text : String) : String :=
  String.mk
    ((((slugCollapsed text).dropWhile (fun c => c = '-')).reverse.dropWhile
        (fun c => c = '-')).reverse)

/-- The character set `[a-z0-9-]` of the slug-safety claim. -/
def slugChars : List Char := "abcdefghijklmnopqrstuvwxyz0123456789-".data

example : slugify "1. Meta Tags (index.html)" = "meta-tags-indexhtml" := by decide
example : slugify "Setup" = "setup" := by decide
example : slugify "a 1" = "a-1" := by decide

/-! ### Properties of the slug encoder -/

theorem mem_pyReplaceDD : ∀ (l : List Char), ∀ c ∈ pyReplaceDD l, c ∈ l := by
  intro l
  induction l using pyReplaceDD.induct with
  | case1 rest ih =>
    intro c hc
    rw [pyReplaceDD] at hc
    rcases List.mem_cons.1 hc with h | h
    · simp [h]
    · have := ih c h
      simp only [List.mem_cons] at this ⊢
      tauto
  | case2 a rest hne ih =>
    intro c hc
    rw [pyReplaceDD.eq_2 a rest hne] at hc
    rcases List.mem_cons.1 hc with h | h
    · simp [h]
    · exact List.mem_cons_of_mem _ (ih c h)
  | case3 => intro c hc; simp [pyReplaceDD] at hc

theorem mem_collapseDashes :
    ∀ (fuel : Nat) (l : List Char), ∀ c ∈ collapseDashes fuel l, c ∈ l := by
  intro fuel
  induction fuel with
  | zero => intro l c hc; simpa [collapseDashes] using hc
  | succ f ih =>
    intro l c hc
    rw [collapseDashes] at hc
    by_cases h : containsDD l = true
    · rw [if_pos h] at hc
      exact mem_pyReplaceDD l c (ih _ c hc)
    · rw [if_neg h] at hc
      exact hc

theorem mem_slugHyphens (t : String) : ∀ c ∈ slugHyphens t, c ∈ slugChars := by
  intro c hc
  rw [slugHyphens] at hc
  rcases List.mem_map.1 hc with ⟨b, hb, hbc⟩
  rcases List.mem_map.1 hb with ⟨a, ha, hab⟩
  have hmem : a ∈ allowedChars := by
    rw [slugFiltered] at ha
    have := (List.mem_filter.1 ha).2
    simpa using this
  have key : allowedChars.all
      (fun a => slugChars.contains
        (if (if a = '_' then '-' else a) = ' ' then '-' else if a = '_' then '-' else a)) =
      true := by decide
  have hres := List.all_eq_true.1 key a hmem
  rw [← hab] at hbc
  rw [← hbc]
  simpa using hres

/-- C8: for every input string, the output of `slugify` contains only
characters from `[a-z0-9-]` and never starts or ends with a hyphen; the
output may be empty (witnessed by input `"."`), and `slugify`, being a
total function, is defined on every input. -/
theorem C8_slug_character_safety :
    (∀ s : String, (∀ c ∈ (slugify s).data, c ∈ slugChars) ∧
      (slugify s).data.head? ≠ some '-' ∧ (slugify s).data.getLast? ≠ some '-') ∧
    slugify "." = "" := by
  constructor
  · intro s
    have hdata : (slugify s).data =
        (((slugCollapsed s).dropWhile (fun c => c = '-')).reverse.dropWhile
            (fun c => c = '-')).reverse := rfl
    refine ⟨?_, ?_, ?_⟩
    · intro c hc
      rw [hdata, List.mem_reverse] at hc
      have h1 : c ∈ ((slugCollapsed s).dropWhile (fun c => c = '-')).reverse :=
        List.dropWhile_subset _ hc
      rw [List.mem_reverse] at h1
      have h2 : c ∈ slugCollapsed s := List.dropWhile_subset _ h1
      exact mem_slugHyphens s c (mem_collapseDashes _ _ c h2)
    · intro h
      rw [hdata] at h
      have hpre : ((((slugCollapsed s).dropWhile (fun c => c = '-')).reverse.dropWhile
          (fun c => c = '-')).reverse) <+: ((slugCollapsed s).dropWhile (fun c => c = '-')) := by
        have hsuf := List.dropWhile_suffix (l := ((slugCollapsed s).dropWhile
          (fun c => c = '-')).reverse) (fun c => c = '-')
        have := List.reverse_prefix.2 hsuf
        simpa using this
      obtain ⟨t, ht⟩ := hpre
      have h7 : ((slugCollapsed s).dropWhile (fun c => c = '-')).head? = some '-' := by
        rw [← ht]
        simp [h]
      have hnot := List.head?_dropWhile_not (fun c => c = '-') (slugCollapsed s)
      rw [h7] at hnot
      simp at hnot
    · intro h
      rw [hdata, List.getLast?_reverse] at h
      have hnot := List.head?_dropWhile_not (fun c => c = '-')
        ((slugCollapsed s).dropWhile (fun c => c = '-')).reverse
      rw [h] at hnot
      simp at hnot
  · decide

/-! ## Decimal rendering facts

The collision-disambiguation loop of `add_ids_to_headings` produces
candidates `base`, `base-1`, `base-2`, …; its termination and the
uniqueness guarantee rest on decimal rendering of counters being injective
and nonempty.  `Nat.repr` is Lean's decimal rendering, matching Python's
`f"{base_id}-{counter}"`. -/

/-- Reads a decimal digit list back into a number (left fold). -/
def decParse (l : List Char) : Nat := l.foldl (fun a c => a * 10 + (c.toNat - 48)) 0

theorem toDigitsCore_append10 :
    ∀ (f n : Nat) (ds : List Char),
      Nat.toDigitsCore 10 f n ds = Nat.toDigitsCore 10 f n [] ++ ds := by
  intro f
  induction f with
  | zero => intro n ds; simp [Nat.toDigitsCore]
  | succ f ih =>
    intro n ds
    rw [Nat.toDigitsCore, Nat.toDigitsCore]
    by_cases h : n / 10 = 0
    · simp [h]
    · rw [if_neg h, if_neg h, ih (n / 10) (Nat.digitChar (n % 10) :: ds),
        ih (n / 10) [Nat.digitChar (n % 10)], List.append_assoc]
      rfl

theorem digitChar_toNat_sub (m : Nat) (h : m < 10) : (Nat.digitChar m).toNat - 48 = m := by
  interval_cases m <;> decide

theorem decParse_toDigitsCore :
    ∀ (f n : Nat), n < f → decParse (Nat.toDigitsCore 10 f n []) = n := by
  intro f
  induction f with
  | zero => intro n h; omega
  | succ f ih =>
    intro n h
    rw [Nat.toDigitsCore]
    by_cases h0 : n / 10 = 0
    · rw [if_pos h0]
      have hn : n < 10 := by omega
      have : n % 10 = n := Nat.mod_eq_of_lt hn
      simp [decParse, this, digitChar_toNat_sub n hn]
    · rw [if_neg h0, toDigitsCore_append10]
      have h1 : n / 10 < n := Nat.div_lt_self (by omega) (by omega)
      have h2 : n / 10 < f := by omega
      rw [decParse, List.foldl_append]
      have := ih (n / 10) h2
      rw [decParse] at this
      rw [this]
      have hm : n % 10 < 10 := Nat.mod_lt _ (by omega)
      simp only [List.foldl_cons, List.foldl_nil]
      rw [digitChar_toNat_sub _ hm]
      omega

theorem toDigitsCore_ne_nil (f n : Nat) (h : 0 < f) : Nat.toDigitsCore 10 f n [] ≠ [] := by
  cases f with
  | zero => omega
  | succ f =>
    rw [Nat.toDigitsCore]
    by_cases h0 : n / 10 = 0
    · simp [h0]
    · rw [if_neg h0, toDigitsCore_append10]
      simp

theorem natRepr_injective : ∀ (m n : Nat), Nat.repr m = Nat.repr n → m = n := by
  intro m n h
  rw [Nat.repr, Nat.repr] at h
  have hdata : Nat.toDigits 10 m = Nat.toDigits 10 n := by
    have := congrArg String.data h
    simpa [List.asString] using this
  rw [Nat.toDigits, Nat.toDigits] at hdata
  have h1 := decParse_toDigitsCore (m + 1) m (Nat.lt_succ_self m)
  have h2 := decParse_toDigitsCore (n + 1) n (Nat.lt_succ_self n)
  rw [← h1, ← h2, hdata]

theorem natRepr_length_pos (n : Nat) : 0 < (Nat.repr n).length := by
  rw [Nat.repr]
  have := toDigitsCore_ne_nil (n + 1) n (Nat.succ_pos n)
  rw [Nat.toDigits]
  cases hx : Nat.toDigitsCore 10 (n + 1) n [] with
  | nil => exact absurd hx this
  | cons c cs => simp [List.asString, String.length, hx]

/-! ## Identifier disambiguation (toc.py lines 96-103)

```
heading_id = base_id
counter = 1
while heading_id in used_ids:
    heading_id = f"{base_id}-{counter}"
    counter += 1
```
-/

/-- The candidate identifier tried at counter value `k` (`k = 0` is the
unsuffixed base). -/
def candidate (base : String) (k : Nat) : String :=
  if k = 0 then base else base ++ "-" ++ Nat.repr k

/-- The disambiguation loop.  Fuel bounds the number of iterations; fuel
`used.length + 1` always suffices because the candidates are pairwise
distinct strings while `used` has only `used.length` members (the same
pigeonhole argument is what makes the Python loop terminate). -/
def uniquifyAux (base : String) (used : List String) : Nat → Nat → String
  | 0, k => candidate base k
  | fuel + 1, k =>
    if candidate base k ∈ used then uniquifyAux base used fuel (k + 1) else candidate base k

/-- Resolves a base identifier against the set of already-used identifiers:
first free candidate among `base`, `base-1`, `base-2`, … -/
def uniquify (base : String) (used : List String) : String :=
  uniquifyAux base used (used.length + 1) 0

theorem candidate_injective (base : String) : Function.Injective (candidate base) := by
  intro i j h
  rw [candidate, candidate] at h
  by_cases hi : i = 0 <;> by_cases hj : j = 0
  · omega
  · rw [if_pos hi, if_neg hj] at h
    have := congrArg String.length h
    simp only [String.length_append] at this
    have h1 := natRepr_length_pos j
    have h2 : ("-" : String).length = 1 := rfl
    omega
  · rw [if_neg hi, if_pos hj] at h
    have := congrArg String.length h
    simp only [String.length_append] at this
    have h1 := natRepr_length_pos i
    have h2 : ("-" : String).length = 1 := rfl
    omega
  · rw [if_neg hi, if_neg hj] at h
    have hdata := congrArg String.data h
    simp only [String.data_append] at hdata
    rw [List.append_assoc, List.append_assoc] at hdata
    have hrepr : (Nat.repr i).data = (Nat.repr j).data :=
      List.append_cancel_left (List.append_cancel_left hdata)
    exact natRepr_injective i j (String.ext hrepr)

theorem uniquifyAux_not_mem (base : String) (used : List String) :
    ∀ (fuel k : Nat), (∃ j, k ≤ j ∧ j < k + fuel ∧ candidate base j ∉ used) →
      uniquifyAux base used fuel k ∉ used := by
  intro fuel
  induction fuel with
  | zero =>
    intro k ⟨j, h1, h2, _⟩
    omega
  | succ f ih =>
    intro k ⟨j, h1, h2, h3⟩
    rw [uniquifyAux]
    by_cases hmem : candidate base k ∈ used
    · rw [if_pos hmem]
      refine ih (k + 1) ⟨j, ?_, by omega, h3⟩
      rcases Nat.eq_or_lt_of_le h1 with heq | hlt
      · exact absurd (heq ▸ h3) (by simpa using hmem)
      · omega
    · rw [if_neg hmem]
      exact hmem

theorem exists_fresh_candidate (base : String) (used : List String) :
    ∃ j, j < used.length + 1 ∧ candidate base j ∉ used := by
  by_contra hcon
  push_neg at hcon
  have hsub : (List.range (used.length + 1)).map (candidate base) ⊆ used := by
    intro x hx
    rcases List.mem_map.1 hx with ⟨j, hj, rfl⟩
    exact hcon j (List.mem_range.1 hj)
  have hnodup : ((List.range (used.length + 1)).map (candidate base)).Nodup :=
    (List.nodup_range _).map (candidate_injective base)
  have := (hnodup.subperm hsub).length_le
  simp at this

theorem uniquify_not_mem (base : String) (used : List String) :
    uniquify base used ∉ used := by
  rw [uniquify]
  obtain ⟨j, hj1, hj2⟩ := exists_fresh_candidate base used
  exact uniquifyAux_not_mem base used (used.length + 1) 0 ⟨j, Nat.zero_le j, by omega, hj2⟩

/-! ## Parsed document model

A parsed document (BeautifulSoup tree) is a tree of element and text
nodes; the document itself is the list of top-level nodes of the parsed
content fragment.  A mutual pair of inductives (node / node list) is used
so that all traversals are structurally recursive and computable. -/

mutual
inductive Node where
  | text (s : String)
  | elem (tag : String) (attrs : List (String × String)) (children : NodeList)
inductive NodeList where
  | nil
  | cons (n : Node) (ns : NodeList)
end

/-- Builds a `NodeList` from a Lean list literal. -/
def nodesOf (l : List Node) : NodeList := l.foldr NodeList.cons NodeList.nil

/-- Attribute lookup (`tag.attrs` is a dict keyed by attribute name). -/
def getAttr (attrs : List (String × String)) (key : String) : Option String :=
  match attrs with
  | [] => none
  | p :: rest => if p.1 = key then some p.2 else getAttr rest key

/-- `tag.has_attr(key)` / `key in tag.attrs`. -/
def hasAttr (attrs : List (String × String)) (key : String) : Bool :=
  attrs.any (fun p => p.1 = key)

/-- `tag[key] = value`: overwrite an existing binding or add a new one. -/
def setAttr (attrs : List (String × String)) (key value : String) : List (String × String) :=
  if hasAttr attrs key then
    attrs.map (fun p => if p.1 = key then (key, value) else p)
  else attrs ++ [(key, value)]

/-- `del tag[key]`. -/
def removeAttr (attrs : List (String × String)) (key : String) : List (String × String) :=
  match attrs with
  | [] => []
  | p :: rest => if p.1 = key then removeAttr rest key else p :: removeAttr rest key

mutual
/-- `tag.get_text()`: concatenation of all descendant strings in document
order. -/
def getTextN : Node → String
  | .text s => s
  | .elem _ _ cs => getTextL cs
def getTextL : NodeList → String
  | .nil => ""
  | .cons n ns => getTextN n ++ getTextL ns
end

/-- Python `str.strip()` whitespace characters (ASCII). -/
def pyWs : List Char := [' ', '\t', '\n', '\r', '\x0b', '\x0c']

/-- Python `str.strip()`: drop whitespace at both ends. -/
def pyStripWs (s : String) : String :=
  String.mk
    (((s.data.dropWhile (fun c => pyWs.contains c)).reverse.dropWhile
        (fun c => pyWs.contains c)).reverse)

mutual
/-- Does any node of the tree satisfy `p`?  (`soup.find(...) is not None`,
searching in document order.) -/
def existsN (p : Node → Bool) : Node → Bool
  | .text s => p (.text s)
  | .elem t a cs => p (.elem t a cs) || existsL p cs
def existsL (p : Node → Bool) : NodeList → Bool
  | .nil => false
  | .cons n ns => existsN p n || existsL p ns
end

mutual
/-- Number of nodes of the tree satisfying `p` (`len(soup.find_all(...))`). -/
def countN (p : Node → Bool) : Node → Nat
  | .text s => if p (.text s) then 1 else 0
  | .elem t a cs => (if p (.elem t a cs) then 1 else 0) + countL p cs
def countL (p : Node → Bool) : NodeList → Nat
  | .nil => 0
  | .cons n ns => countN p n + countL p ns
end

/-! ## Heading Indexer: `add_ids_to_headings` (toc.py lines 76-116) -/

/-- A heading record: `{'level': tag_name, 'text': text, 'id': heading_id}`.
The Python dictionary also stores `'element'`, a reference to the mutated
live heading node; no later consumer reads it (`build_toc_structure` uses
only `level`, `text` and `id`), so it is omitted here. -/
structure HeadRec where
  level : String
  text : String
  id : String
deriving Repr, DecidableEq

/-- The running state of a pass: `used_ids` and the accumulated `headings`
list. -/
structure IdState where
  used : List String
  recs : List HeadRec

mutual
/-- One `soup.find_all(tag_name)` pass of `add_ids_to_headings`, visiting
matching elements in document order (an element before its descendants):
for each element whose tag is `tag`, take its stripped text, slugify it,
disambiguate against `used_ids`, set the `id` attribute and append a
heading record. -/
def assignN (tag : String) : Node → IdState → Node × IdState
  | .text s, st => (.text s, st)
  | .elem t a cs, st =>
    if t = tag then
      let txt := pyStripWs (getTextL cs)
      let hid := uniquify (slugify txt) st.used
      let st1 : IdState := ⟨hid :: st.used, st.recs ++ [⟨tag, txt, hid⟩]⟩
      let r := assignL tag cs st1
      (.elem t (setAttr a "id" hid) r.1, r.2)
    else
      let r := assignL tag cs st
      (.elem t a r.1, r.2)
def assignL (tag : String) : NodeList → IdState → NodeList × IdState
  | .nil, st => (.nil, st)
  | .cons n ns, st =>
    let r1 := assignN tag n st
    let r2 := assignL tag ns r1.2
    (.cons r1.1 r2.1, r2.2)
end

/-- `add_ids_to_headings` (toc.py lines 76-116).  The outer loop
`for tag_name in ['h2', 'h3', 'h4']` runs one `find_all` pass per tag
name over the current document, sharing `used_ids` and `headings` across
passes — so all `h2` records precede all `h3` records, which precede all
`h4` records. -/
def addIdsToHeadings (doc : NodeList) : NodeList × List HeadRec :=
  let r1 := assignL "h2" doc ⟨[], []⟩
  let r2 := assignL "h3" r1.1 r1.2
  let r3 := assignL "h4" r2.1 r2.2
  (r3.1, r3.2.recs)

example :
    (addIdsToHeadings (nodesOf
      [.elem "h2" [] (nodesOf [.text "Setup"]),
       .elem "h3" [] (nodesOf [.text "Install"]),
       .elem "h3" [] (nodesOf [.text "Configure"]),
       .elem "h2" [] (nodesOf [.text "Usage"])])).2 =
    [⟨"h2", "Setup", "setup"⟩, ⟨"h2", "Usage", "usage"⟩,
     ⟨"h3", "Install", "install"⟩, ⟨"h3", "Configure", "configure"⟩] := by decide

/-- The document of the C1 scenario: headings in document order
H2 "Setup", H3 "Install", H3 "Configure", H2 "Usage". -/
def scenarioDoc : NodeList :=
  nodesOf
    [.elem "h2" [] (nodesOf [.text "Setup"]),
     .elem "h3" [] (nodesOf [.text "Install"]),
     .elem "h3" [] (nodesOf [.text "Configure"]),
     .elem "h2" [] (nodesOf [.text "Usage"])]

/-- C1: the claim says `add_ids_to_headings` returns heading records in
document order (Setup, Install, Configure, Usage).  The code instead runs
one `find_all` pass per tag name (`h2` first, then `h3`, then `h4`), so on
the claim's own scenario it returns Setup, Usage, Install, Configure —
grouping by level, not document order — which also makes the hierarchy
builder nest "Install"/"Configure" under "Usage" instead of "Setup". -/
theorem C1_document_order_code_bug :
    ((addIdsToHeadings scenarioDoc).2.map fun r => (r.level, r.id)) =
      [("h2", "setup"), ("h2", "usage"), ("h3", "install"), ("h3", "configure")] ∧
    ((addIdsToHeadings scenarioDoc).2.map fun r => r.id) ≠
      ["setup", "install", "configure", "usage"] := by decide

/-! ### Identifier uniqueness (C5) -/

/-- Pass invariant: the accumulated records carry pairwise-distinct
identifiers, and every accumulated identifier is in `used_ids`. -/
def IdInv (st : IdState) : Prop :=
  (st.recs.map (fun r => r.id)).Nodup ∧ ∀ r ∈ st.recs, r.id ∈ st.used

theorem idInv_push (st : IdState) (tag txt : String) (h : IdInv st) :
    IdInv ⟨uniquify (slugify txt) st.used :: st.used,
      st.recs ++ [⟨tag, txt, uniquify (slugify txt) st.used⟩]⟩ := by
  have hfresh := uniquify_not_mem (slugify txt) st.used
  constructor
  · simp only [List.map_append, List.map_cons, List.map_nil]
    rw [List.nodup_append]
    refine ⟨h.1, List.nodup_singleton _, ?_⟩
    intro x hx hx'
    simp only [List.mem_singleton] at hx'
    subst hx'
    rcases List.mem_map.1 hx with ⟨r, hr, hrid⟩
    exact hfresh (hrid ▸ h.2 r hr)
  · intro r hr
    rcases List.mem_append.1 hr with hr | hr
    · exact List.mem_cons_of_mem _ (h.2 r hr)
    · simp only [List.mem_singleton] at hr
      subst hr
      exact List.mem_cons_self _ _

mutual
theorem assignN_inv (tag : String) :
    ∀ (n : Node) (st : IdState), IdInv st →
      IdInv (assignN tag n st).2 ∧ st.used ⊆ (assignN tag n st).2.used
  | .text s, st, h => ⟨h, fun _ hx => hx⟩
  | .elem t a cs, st, h => by
    rw [assignN]
    by_cases ht : t = tag
    · rw [if_pos ht]
      have hst1 := idInv_push st tag (pyStripWs (getTextL cs)) h
      have hrec := assignL_inv tag cs _ hst1
      exact ⟨hrec.1, fun x hx => hrec.2 (List.mem_cons_of_mem _ hx)⟩
    · rw [if_neg ht]
      exact assignL_inv tag cs st h
theorem assignL_inv (tag : String) :
    ∀ (l : NodeList) (st : IdState), IdInv st →
      IdInv (assignL tag l st).2 ∧ st.used ⊆ (assignL tag l st).2.used
  | .nil, st, h => ⟨h, fun _ hx => hx⟩
  | .cons n ns, st, h => by
    rw [assignL]
    have h1 := assignN_inv tag n st h
    have h2 := assignL_inv tag ns _ h1.1
    exact ⟨h2.1, fun x hx => h2.2 (h1.2 hx)⟩
end

theorem addIds_nodup (doc : NodeList) :
    ((addIdsToHeadings doc).2.map (fun r => r.id)).Nodup := by
  have base : IdInv ⟨[], []⟩ := ⟨List.nodup_nil, by simp⟩
  have h1 := assignL_inv "h2" doc ⟨[], []⟩ base
  have h2 := assignL_inv "h3" (assignL "h2" doc ⟨[], []⟩).1 _ h1.1
  have h3 := assignL_inv "h4" (assignL "h3" (assignL "h2" doc ⟨[], []⟩).1
    (assignL "h2" doc ⟨[], []⟩).2).1 _ h2.1
  exact h3.1.1

/-- Document with two `h2` headings both titled "Overview" (the C5
scenario). -/
def overviewDoc : NodeList :=
  nodesOf
    [.elem "h2" [] (nodesOf [.text "Overview"]),
     .elem "h2" [] (nodesOf [.text "Overview"])]

/-- Document with `h2` headings "a 1", "a", "a": the heading "a 1" slugs to
`a-1`, occupying the first suffixed candidate of the two later "a"
headings. -/
def collideDoc : NodeList :=
  nodesOf
    [.elem "h2" [] (nodesOf [.text "a 1"]),
     .elem "h2" [] (nodesOf [.text "a"]),
     .elem "h2" [] (nodesOf [.text "a"])]

/-- C5 counterexample: the claim says N in-window headings with identical
text get the base slug and then suffixes `-1`, `-2`, ….  In `collideDoc`
the two headings titled "a" receive `a` and `a-2` (not `a-1`): the
disambiguation loop appends the smallest suffix not used by ANY earlier
identifier, and `a-1` is already taken by the heading titled "a 1". -/
theorem C5_counterexample :
    ((addIdsToHeadings collideDoc).2.filter (fun r => r.text = "a")).map (fun r => r.id) =
      ["a", "a-2"] ∧
    ¬(((addIdsToHeadings collideDoc).2.filter (fun r => r.text = "a")).map (fun r => r.id) =
      ["a", "a-1"]) := by decide

/-- C5 (amended): the identifiers assigned within one pass are pairwise
distinct for every document; a later heading whose base slug is taken
receives the base slug suffixed with the smallest counter whose candidate
is not yet used by any earlier identifier (which is `-1`, `-2`, … exactly
when no other heading occupies those candidates); in particular two `h2`
headings both titled "Overview" receive `overview` and `overview-1`. -/
theorem C5_identifier_uniqueness :
    (∀ doc : NodeList, ((addIdsToHeadings doc).2.map (fun r => r.id)).Nodup) ∧
    (addIdsToHeadings overviewDoc).2.map (fun r => r.id) = ["overview", "overview-1"] :=
  ⟨addIds_nodup, by decide⟩

/-- C3: the claim (and the function's own docstring example) says
`slugify("1. Meta Tags (index.html)")` is `"meta-tags-index-html"`.  The
code returns `"meta-tags-indexhtml"`: the `.` inside `index.html` is not
in the retained character set and is deleted outright (joined with `''`),
not converted to a hyphen, so no separator survives between `index` and
`html`. -/
theorem C3_slugify_example_code_bug :
    slugify "1. Meta Tags (index.html)" = "meta-tags-indexhtml" ∧
    slugify "1. Meta Tags (index.html)" ≠ "meta-tags-index-html" := by decide

/-! ## Hierarchy Builder: `build_toc_structure` (toc.py lines 119-202) -/

/-- `int(heading['level'][1])`: the digit after the `h`. -/
def levelNum (lvl : String) : Nat :=
  match lvl.data with
  | _ :: c :: _ => c.toNat - 48
  | _ => 0

/-- An indent of `2 * k` spaces (`'  ' * k`). -/
def indentSp (k : Nat) : String := String.mk (List.replicate (2 * k) ' ')

/-- The fixed lines appended before the heading loop. -/
def tocHeaderParts : List String :=
  ["<nav class=\"table-of-contents\">",
   "  <div class=\"toc-header\">",
   "    <div class=\"toc-header-left\">",
   "      <ul>",
   "        <li class=\"toc-section\">",
   "          <div class=\"toc-section-header\">",
   "            <button class=\"toc-section-toggle\" data-section=\"headings\">▼</button>",
   "            <span class=\"toc-section-title\">Contents</span>",
   "          </div>",
   "          <ul class=\"toc-section-content\" data-section=\"headings\">"]

/-- The fixed lines appended after the closing loop. -/
def tocFooterParts : List String :=
  ["        </li>",
   "      </ul>",
   "    </div>",
   "    <div class=\"toc-header-right\">",
   "      <button class=\"toc-toggle\" aria-label=\"Toggle table of contents\">▼</button>",
   "    </div>",
   "  </div>",
   "</nav>"]

/-- `s.endswith(suffix)` on the string model. -/
def strEndsWith (s suffix : String) : Bool := suffix.data.isSuffixOf s.data

/-- The loop body of `build_toc_structure` for one heading, acting on
`(html_parts, current_depth, open_lists)`. -/
def tocEntryStep (st : List String × Nat × Nat) (h : HeadRec) : List String × Nat × Nat :=
  let parts := st.1
  let currentDepth := st.2.1
  let openLists := st.2.2
  let ln := levelNum h.level
  let step :=
    if currentDepth < ln then
      (parts ++ List.replicate (ln - currentDepth) "            <ul>",
        openLists + (ln - currentDepth))
    else if ln < currentDepth then
      (parts ++
        (List.replicate (currentDepth - ln) ["            </ul>", "          </li>"]).flatten,
        openLists - (currentDepth - ln))
    else
      (if strEndsWith (parts.getLastD "")
            "<ul class=\"toc-section-content\" data-section=\"headings\">" then
        parts
       else parts ++ ["          </li>"], openLists)
  let indent := indentSp (step.2 + 5)
  (step.1 ++
      [indent ++ "<li>",
       indent ++ "  <a href=\"#" ++ h.id ++ "\">" ++ h.text ++ "</a>"],
    ln, step.2)

/-- The `while open_lists > 0` closing loop. -/
def tocClosingParts (openLists : Nat) : List String :=
  (List.replicate openLists ["          </li>", "          </ul>"]).flatten

/-- `build_toc_structure` (toc.py lines 119-202): emits the navigation
markup as a list of lines joined with newlines; the heading loop tracks
`current_depth` (starting at 2) and `open_lists` (starting at 1, for the
already-open section-content list). -/
def buildTocStructure (headings : List HeadRec) : String :=
  if headings.isEmpty then ""
  else
    let tocHeadings := headings.filter (fun h => ["h2", "h3", "h4"].contains h.level)
    if tocHeadings.isEmpty then ""
    else
      let r := tocHeadings.foldl tocEntryStep (tocHeaderParts, 2, 1)
      String.intercalate "\n" (r.1 ++ tocClosingParts r.2.2 ++ tocFooterParts)

/-- Number of occurrences of `pat` in `l` (positions where `pat` is a
prefix of the remaining suffix). -/
def countTokAux (pat : List Char) : List Char → Nat
  | [] => 0
  | c :: rest => (if pat.isPrefixOf (c :: rest) then 1 else 0) + countTokAux pat rest

/-- Number of occurrences of the token `pat` in the string `s`. -/
def countTok (pat s : String) : Nat := countTokAux pat.data s.data

/-- The heading records of the spec's own depth example `[2,3,3,2,4,3]`. -/
def depthExampleRecs : List HeadRec :=
  [⟨"h2", "a", "a"⟩, ⟨"h3", "b", "b"⟩, ⟨"h3", "c", "c"⟩,
   ⟨"h2", "d", "d"⟩, ⟨"h4", "e", "e"⟩, ⟨"h3", "f", "f"⟩]

set_option maxRecDepth 40000 in
/-- C2: the claim says the emitted markup is balanced for any depth
sequence, e.g. `[2,3,3,2,4,3]`.  On exactly that sequence the markup has
7 `<li>` opens but only 6 `</li>` closes: each one-level "going shallower"
transition emits a single `</li>` where balanced markup needs two (the
open item at the deeper level is never closed).  The `<ul>` counts do
balance. -/
theorem C2_unbalanced_li_code_bug :
    countTok "<li" (buildTocStructure depthExampleRecs) = 7 ∧
    countTok "</li" (buildTocStructure depthExampleRecs) = 6 ∧
    countTok "<ul" (buildTocStructure depthExampleRecs) = 5 ∧
    countTok "</ul" (buildTocStructure depthExampleRecs) = 5 := by decide

/-! ## Document Mutator (toc.py lines 205-283) -/

/-- Splits a class-attribute value on spaces (the multi-valued `class`
attribute; `class_='table-of-contents'` matches any element whose class
token list contains that token). -/
def splitOnSpace : List Char → List Char → List String
  | [], cur => [String.mk cur.reverse]
  | ' ' :: rest, cur => String.mk cur.reverse :: splitOnSpace rest []
  | c :: rest, cur => splitOnSpace rest (c :: cur)

/-- `soup.find('nav', class_='table-of-contents')` match predicate. -/
def isTocNav : Node → Bool
  | .text _ => false
  | .elem t a _ =>
    t = "nav" && (splitOnSpace ((getAttr a "class").getD "").data []).contains "table-of-contents"

/-- `soup.find('h1')` match predicate. -/
def isH1 : Node → Bool
  | .text _ => false
  | .elem t _ _ => t = "h1"

/-- An element with the given tag name carrying an `id` attribute. -/
def isTagWithId (tag : String) : Node → Bool
  | .text _ => false
  | .elem t a _ => t = tag && hasAttr a "id"

/-- The number of h2/h3/h4 headings carrying an `id` attribute (the
three-tag counting loops of toc.py lines 308-313 and 439-443). -/
def idHeadCount (doc : NodeList) : Nat :=
  countL (isTagWithId "h2") doc + countL (isTagWithId "h3") doc +
    countL (isTagWithId "h4") doc

mutual
/-- Removes the first node (in document order) satisfying `p` from inside
a node's descendants. -/
def removeInN (p : Node → Bool) : Node → Node × Bool
  | .text s => (.text s, false)
  | .elem t a cs =>
    let r := removeInL p cs
    (.elem t a r.1, r.2)
/-- Removes the first node (in document order) satisfying `p` from a node
list (`soup.find(...)` followed by `.decompose()`). -/
def removeInL (p : Node → Bool) : NodeList → NodeList × Bool
  | .nil => (.nil, false)
  | .cons n ns =>
    if p n then (ns, true)
    else
      let r := removeInN p n
      if r.2 then (.cons r.1 ns, true)
      else
        let r2 := removeInL p ns
        (.cons r.1 r2.1, r2.2)
end

/-- `remove_existing_toc` (toc.py lines 253-262): find the first
`nav.table-of-contents` and decompose it; no-op when absent. -/
def removeExistingToc (doc : NodeList) : NodeList := (removeInL isTocNav doc).1

mutual
/-- Inserts `new` immediately after the first node (in document order)
satisfying `p`, as a sibling inside that node's parent
(`h1.insert_after(toc_nav)`). -/
def insAfterN (p : Node → Bool) (new : Node) : Node → Node × Bool
  | .text s => (.text s, false)
  | .elem t a cs =>
    let r := insAfterL p new cs
    (.elem t a r.1, r.2)
def insAfterL (p : Node → Bool) (new : Node) : NodeList → NodeList × Bool
  | .nil => (.nil, false)
  | .cons n ns =>
    if p n then (.cons n (.cons new ns), true)
    else
      let r := insAfterN p new n
      if r.2 then (.cons r.1 ns, true)
      else
        let r2 := insAfterL p new ns
        (.cons r.1 r2.1, r2.2)
end

/-- The `for child in soup.children` fallback of `inject_toc`: the first
top-level element child that is a Tag and either is not a `div` or has no
`data-hashtags` attribute. -/
def eligibleFirst : Node → Bool
  | .text _ => false
  | .elem t a _ => !(t = "div") || !hasAttr a "data-hashtags"

/-- Inserts `new` before the first top-level node satisfying `p`
(`first_element.insert_before(toc_nav)`; `soup.children` is not
recursive). -/
def insBeforeTop (p : Node → Bool) (new : Node) : NodeList → NodeList × Bool
  | .nil => (.nil, false)
  | .cons n ns =>
    if p n then (.cons new (.cons n ns), true)
    else
      let r := insBeforeTop p new ns
      (.cons n r.1, r.2)

/-- Model of re-parsing the generated markup inside `inject_toc`
(`BeautifulSoup(toc_html, 'lxml').find('nav', class_='table-of-contents')`):
an empty markup string parses to no nav (`if not toc_html: return False`);
`build_toc_structure`'s non-empty output is exactly one
`nav.table-of-contents` container, modelled as a nav element wrapping the
markup as text — like the parsed original it contains no further nav and
no heading elements. -/
def tocNavOf (toc_html : String) : Option Node :=
  if toc_html = "" then none
  else some (.elem "nav" [("class", "table-of-contents")] (.cons (.text toc_html) .nil))

/-- `inject_toc` (toc.py lines 205-250): place the parsed navigation
element right after the first `h1`; with no `h1`, before the first
eligible top-level node; report whether insertion happened. -/
def injectToc (doc : NodeList) (tocNav : Option Node) : NodeList × Bool :=
  match tocNav with
  | none => (doc, false)
  | some nav =>
    if existsL isH1 doc then insAfterL isH1 nav doc
    else insBeforeTop eligibleFirst nav doc

mutual
/-- One `find_all(tag_name)` pass of `remove_ids_from_headings`: delete
the `id` attribute from every element with the given tag, counting the
deletions. -/
def removeIdsN (tag : String) : Node → Node × Nat
  | .text s => (.text s, 0)
  | .elem t a cs =>
    let r := removeIdsL tag cs
    if t = tag && hasAttr a "id" then (.elem t (removeAttr a "id") r.1, r.2 + 1)
    else (.elem t a r.1, r.2)
def removeIdsL (tag : String) : NodeList → NodeList × Nat
  | .nil => (.nil, 0)
  | .cons n ns =>
    let r1 := removeIdsN tag n
    let r2 := removeIdsL tag ns
    (.cons r1.1 r2.1, r1.2 + r2.2)
end

/-- `remove_ids_from_headings` (toc.py lines 265-283): an `h2` pass, an
`h3` pass and an `h4` pass sharing the deletion counter. -/
def removeIdsFromHeadings (doc : NodeList) : NodeList × Nat :=
  let r1 := removeIdsL "h2" doc
  let r2 := removeIdsL "h3" r1.1
  let r3 := removeIdsL "h4" r2.1
  (r3.1, r1.2 + r2.2 + r3.2)

/-! ## Per-file drivers (toc.py lines 286-352 and 355-500)

File input/output is modelled explicitly: a driver receives the parsed
document and returns its status flag, its message, the resulting on-disk
document content, and whether it rewrote the file (on skip, failure or
dry-run paths the file keeps its original content and `wrote` is
`false`). -/

structure ProcResult where
  ok : Bool
  msg : String
  doc : NodeList
  wrote : Bool

/-- The `"✓ ..."` summary message of `strip_toc_from_file`. -/
def stripChangesMsg (hasToc : Bool) (idsRemoved : Nat) : String :=
  "✓ " ++ String.intercalate ", "
    ((if hasToc then ["TOC removed"] else []) ++
      (if 0 < idsRemoved then [Nat.repr idsRemoved ++ " IDs removed"] else []))

/-- `strip_toc_from_file` (toc.py lines 286-352): skip early when neither
a navigation block nor heading identifiers are present (and not forced);
otherwise remove the block and the identifiers, and skip — before any
write — when that changed nothing; otherwise write back (unless a dry
run). -/
def stripTocFromFile (doc : NodeList) (dryRun force : Bool) : ProcResult :=
  let hasToc := existsL isTocNav doc
  let idsCount := idHeadCount doc
  if !force && !hasToc && idsCount == 0 then
    ⟨true, "Skipped (no TOC or IDs found)", doc, false⟩
  else
    let d1 := removeExistingToc doc
    let r := removeIdsFromHeadings d1
    if !hasToc && r.2 == 0 then
      ⟨true, "Skipped (no TOC or IDs found)", doc, false⟩
    else if dryRun then
      ⟨true, stripChangesMsg hasToc r.2, doc, false⟩
    else
      ⟨true, stripChangesMsg hasToc r.2, r.1, true⟩

/-- The `"N h2, N h3, N h4"` summary of `process_html_file`. -/
def headingSummary (recs : List HeadRec) : String :=
  let h2c := (recs.filter (fun h => h.level = "h2")).length
  let h3c := (recs.filter (fun h => h.level = "h3")).length
  let h4c := (recs.filter (fun h => h.level = "h4")).length
  String.intercalate ", "
    ((if 0 < h2c then [Nat.repr h2c ++ " h2"] else []) ++
      (if 0 < h3c then [Nat.repr h3c ++ " h3"] else []) ++
      (if 0 < h4c then [Nat.repr h4c ++ " h4"] else []))

/-- The regeneration pipeline of `process_html_file` (toc.py lines
449-497), run after every skip check has fallen through: remove any
existing navigation block, index the headings, skip when no in-window
heading exists, build the navigation markup, inject it, and write back
(unless a dry run). -/
def regenerate (doc : NodeList) (dryRun : Bool) : ProcResult :=
  let d1 := removeExistingToc doc
  let r := addIdsToHeadings d1
  let tocHeadings := r.2.filter (fun h => ["h2", "h3", "h4"].contains h.level)
  if tocHeadings.isEmpty then ⟨true, "Skipped (no h2/h3/h4 headings)", doc, false⟩
  else
    let ri := injectToc r.1 (tocNavOf (buildTocStructure r.2))
    if ri.2 then
      if dryRun then ⟨true, "✓ TOC added (" ++ headingSummary r.2 ++ ")", doc, false⟩
      else ⟨true, "✓ TOC added (" ++ headingSummary r.2 ++ ")", ri.1, true⟩
    else ⟨false, "Failed to inject TOC", doc, false⟩

/-- `process_html_file` (toc.py lines 355-500).  The source-note discovery
and timestamp comparison of lines 368-425 query the file system; their
outcome is taken as the Boolean `upToDate` ("a source file was found and
the output's modification time is not older").  After that preamble: skip
when not forced, a navigation block exists and some in-window heading
already carries an identifier; otherwise regenerate. -/
def processHtmlFile (doc : NodeList) (dryRun force upToDate : Bool) : ProcResult :=
  if !force && upToDate then ⟨true, "Skipped (up-to-date)", doc, false⟩
  else if !force && existsL isTocNav doc then
    if 0 < idHeadCount doc then
      ⟨true, "Skipped (already processed, use --force to regenerate)", doc, false⟩
    else regenerate doc dryRun
  else regenerate doc dryRun

/-- A minimal already-injected-looking navigation node. -/
def navNodePlain : Node :=
  .elem "nav" [("class", "table-of-contents")] (.cons (.text "x") .nil)

example :
    countL isTocNav
      (injectToc
        (injectToc (nodesOf [.elem "h1" [] (nodesOf [.text "T"])]) (some navNodePlain)).1
        (some navNodePlain)).1 = 2 := by decide

/-! ### Structural lemmas about the document mutator -/

/-- Predicates that only inspect an element's tag and attributes, never
its children (all the match predicates used by the TOC engine are of this
kind). -/
def ChildBlind (p : Node → Bool) : Prop :=
  ∀ (t : String) (a : List (String × String)) (cs cs' : NodeList),
    p (.elem t a cs) = p (.elem t a cs')

theorem childBlind_isTocNav : ChildBlind isTocNav := fun _ _ _ _ => rfl

theorem childBlind_isH1 : ChildBlind isH1 := fun _ _ _ _ => rfl

theorem childBlind_isTagWithId (tag : String) : ChildBlind (isTagWithId tag) :=
  fun _ _ _ _ => rfl

theorem countN_pos (p : Node → Bool) (n : Node) (h : p n = true) : 1 ≤ countN p n := by
  cases n with
  | text s => rw [countN, if_pos h]
  | elem t a cs => rw [countN, if_pos h]; omega

mutual
theorem countN_zero (p : Node → Bool) :
    ∀ n : Node, existsN p n = false → countN p n = 0
  | .text s, h => by
    rw [existsN] at h
    rw [countN, if_neg (by simp [h])]
  | .elem t a cs, h => by
    rw [existsN, Bool.or_eq_false_iff] at h
    rw [countN, if_neg (by simp [h.1]), countL_zero p cs h.2]
theorem countL_zero (p : Node → Bool) :
    ∀ l : NodeList, existsL p l = false → countL p l = 0
  | .nil, _ => rfl
  | .cons n ns, h => by
    rw [existsL, Bool.or_eq_false_iff] at h
    rw [countL, countN_zero p n h.1, countL_zero p ns h.2]
end

mutual
theorem removeInN_spec (p : Node → Bool) (hp : ChildBlind p) :
    ∀ n : Node,
      ((removeInN p n).2 = true → countN p (removeInN p n).1 + 1 ≤ countN p n) ∧
      ((removeInN p n).2 = false → (removeInN p n).1 = n ∧ existsN p n = p n)
  | .text s => by
    refine ⟨fun h => ?_, fun _ => ⟨rfl, rfl⟩⟩
    simp [removeInN] at h
  | .elem t a cs => by
    have ih := removeInL_spec p hp cs
    constructor
    · intro h
      simp only [removeInN] at h ⊢
      rw [countN, countN, hp t a (removeInL p cs).1 cs]
      have := ih.1 h
      omega
    · intro h
      simp only [removeInN] at h ⊢
      obtain ⟨h1, h2⟩ := ih.2 h
      rw [h1]
      exact ⟨rfl, by rw [existsN, h2, Bool.or_false]⟩
theorem removeInL_spec (p : Node → Bool) (hp : ChildBlind p) :
    ∀ l : NodeList,
      ((removeInL p l).2 = true → countL p (removeInL p l).1 + 1 ≤ countL p l) ∧
      ((removeInL p l).2 = false → (removeInL p l).1 = l ∧ existsL p l = false)
  | .nil => by
    refine ⟨fun h => ?_, fun _ => ⟨rfl, rfl⟩⟩
    simp [removeInL] at h
  | .cons n ns => by
    have ihn := removeInN_spec p hp n
    have ihl := removeInL_spec p hp ns
    by_cases hpn : p n = true
    · rw [removeInL, if_pos hpn]
      dsimp only
      refine ⟨fun _ => ?_, fun h => by simp at h⟩
      rw [countL]
      have := countN_pos p n hpn
      omega
    · rw [removeInL, if_neg hpn]
      dsimp only
      by_cases hr : (removeInN p n).2 = true
      · rw [if_pos hr]
        dsimp only
        refine ⟨fun _ => ?_, fun h => by simp at h⟩
        rw [countL, countL]
        have := ihn.1 hr
        omega
      · rw [if_neg hr]
        dsimp only
        have hr' : (removeInN p n).2 = false := by
          revert hr; cases (removeInN p n).2 <;> simp
        obtain ⟨hn1, hn2⟩ := ihn.2 hr'
        constructor
        · intro h2
          rw [countL, countL, hn1]
          have := ihl.1 h2
          omega
        · intro h2
          obtain ⟨hl1, hl2⟩ := ihl.2 h2
          rw [hn1, hl1]
          refine ⟨rfl, ?_⟩
          rw [existsL, hl2, hn2, Bool.or_false]
          simp [hpn]
end

mutual
theorem insAfterN_spec (p q : Node → Bool) (new : Node) (hq : ChildBlind q) :
    ∀ n : Node,
      ((insAfterN p new n).2 = true →
        countN q (insAfterN p new n).1 = countN q n + countN q new) ∧
      ((insAfterN p new n).2 = false → (insAfterN p new n).1 = n ∧ existsN p n = p n)
  | .text s => by
    refine ⟨fun h => ?_, fun _ => ⟨rfl, rfl⟩⟩
    simp [insAfterN] at h
  | .elem t a cs => by
    have ih := insAfterL_spec p q new hq cs
    constructor
    · intro h
      simp only [insAfterN] at h ⊢
      rw [countN, countN, hq t a (insAfterL p new cs).1 cs, ih.1 h]
      omega
    · intro h
      simp only [insAfterN] at h ⊢
      obtain ⟨h1, h2⟩ := ih.2 h
      rw [h1]
      exact ⟨rfl, by rw [existsN, h2, Bool.or_false]⟩
theorem insAfterL_spec (p q : Node → Bool) (new : Node) (hq : ChildBlind q) :
    ∀ l : NodeList,
      ((insAfterL p new l).2 = true →
        countL q (insAfterL p new l).1 = countL q l + countN q new) ∧
      ((insAfterL p new l).2 = false → (insAfterL p new l).1 = l ∧ existsL p l = false)
  | .nil => by
    refine ⟨fun h => ?_, fun _ => ⟨rfl, rfl⟩⟩
    simp [insAfterL] at h
  | .cons n ns => by
    have ihn := insAfterN_spec p q new hq n
    have ihl := insAfterL_spec p q new hq ns
    by_cases hpn : p n = true
    · rw [insAfterL, if_pos hpn]
      dsimp only
      refine ⟨fun _ => ?_, fun h => by simp at h⟩
      rw [countL, countL, countL]
      omega
    · rw [insAfterL, if_neg hpn]
      dsimp only
      by_cases hr : (insAfterN p new n).2 = true
      · rw [if_pos hr]
        dsimp only
        refine ⟨fun _ => ?_, fun h => by simp at h⟩
        rw [countL, countL, ihn.1 hr]
        omega
      · rw [if_neg hr]
        dsimp only
        have hr' : (insAfterN p new n).2 = false := by
          revert hr; cases (insAfterN p new n).2 <;> simp
        obtain ⟨hn1, hn2⟩ := ihn.2 hr'
        constructor
        · intro h2
          rw [countL, countL, hn1, ihl.1 h2]
          omega
        · intro h2
          obtain ⟨hl1, hl2⟩ := ihl.2 h2
          rw [hn1, hl1]
          refine ⟨rfl, ?_⟩
          rw [existsL, hl2, hn2, Bool.or_false]
          simp [hpn]
end

theorem insBeforeTop_spec (p q : Node → Bool) (new : Node) :
    ∀ l : NodeList,
      ((insBeforeTop p new l).2 = true →
        countL q (insBeforeTop p new l).1 = countL q l + countN q new) ∧
      ((insBeforeTop p new l).2 = false → (insBeforeTop p new l).1 = l)
  | .nil => by
    refine ⟨fun h => ?_, fun _ => rfl⟩
    simp [insBeforeTop] at h
  | .cons n ns => by
    have ihl := insBeforeTop_spec p q new ns
    by_cases hpn : p n = true
    · rw [insBeforeTop, if_pos hpn]
      dsimp only
      refine ⟨fun _ => ?_, fun h => by simp at h⟩
      simp only [countL]
      omega
    · rw [insBeforeTop, if_neg hpn]
      dsimp only
      constructor
      · intro h2
        simp only [countL]
        rw [ihl.1 h2]
        omega
      · intro h2
        rw [ihl.2 h2]

/-! ### Attribute-level lemmas -/

theorem isTocNav_elem (t : String) (a : List (String × String)) (cs : NodeList) :
    isTocNav (.elem t a cs) =
      (t = "nav" &&
        (splitOnSpace ((getAttr a "class").getD "").data []).contains "table-of-contents") := rfl

theorem isTagWithId_elem (tag t : String) (a : List (String × String)) (cs : NodeList) :
    isTagWithId tag (.elem t a cs) = (t = tag && hasAttr a "id") := rfl

theorem getAttr_setAttr_ne (k k' v : String) (hne : ¬(k' = k)) :
    ∀ a : List (String × String), getAttr (setAttr a k v) k' = getAttr a k' := by
  intro a
  rw [setAttr]
  by_cases h : hasAttr a k = true
  · rw [if_pos h]
    clear h
    induction a with
    | nil => rfl
    | cons x xs ih =>
      simp only [List.map_cons]
      by_cases hx : x.1 = k
      · simp only [if_pos hx, getAttr]
        have h1 : ¬((k, v).1 = k') := fun hh => hne (by simpa using hh.symm)
        have h2 : ¬(x.1 = k') := fun hh => hne (by rw [← hh, hx])
        rw [if_neg h1, if_neg h2]
        exact ih
      · simp only [if_neg hx, getAttr]
        by_cases hx' : x.1 = k'
        · rw [if_pos hx', if_pos hx']
        · rw [if_neg hx', if_neg hx']
          exact ih
  · rw [if_neg h]
    clear h
    induction a with
    | nil =>
      simp only [List.nil_append, getAttr]
      have h1 : ¬((k, v).1 = k') := fun hh => hne (by simpa using hh.symm)
      rw [if_neg h1]
    | cons x xs ih =>
      simp only [List.cons_append, getAttr]
      by_cases hx' : x.1 = k'
      · rw [if_pos hx', if_pos hx']
      · rw [if_neg hx', if_neg hx']
        exact ih

theorem getAttr_removeAttr_ne (k k' : String) (hne : ¬(k' = k)) :
    ∀ a : List (String × String), getAttr (removeAttr a k) k' = getAttr a k' := by
  intro a
  induction a with
  | nil => rfl
  | cons x xs ih =>
    rw [removeAttr]
    by_cases hxk : x.1 = k
    · rw [if_pos hxk, getAttr, if_neg (fun hh : x.1 = k' => hne (by rw [← hh, hxk]))]
      exact ih
    · rw [if_neg hxk, getAttr, getAttr]
      by_cases hx' : x.1 = k'
      · rw [if_pos hx', if_pos hx']
      · rw [if_neg hx', if_neg hx']
        exact ih

theorem hasAttr_removeAttr (k : String) :
    ∀ a : List (String × String), hasAttr (removeAttr a k) k = false := by
  intro a
  induction a with
  | nil => rfl
  | cons x xs ih =>
    rw [removeAttr]
    by_cases hxk : x.1 = k
    · rw [if_pos hxk]
      exact ih
    · rw [if_neg hxk, hasAttr, List.any_cons]
      rw [hasAttr] at ih
      rw [ih]
      simp [hxk]

theorem countN_elem (p : Node → Bool) (t : String) (a : List (String × String)) (cs : NodeList) :
    countN p (.elem t a cs) = (if p (.elem t a cs) then 1 else 0) + countL p cs := rfl

/-! ### The indexing and stripping passes only touch `id` attributes, so
they preserve navigation-block counts; the stripping passes eliminate and
count `id` attributes exactly. -/

mutual
theorem assignN_nav (tag : String) : ∀ (n : Node) (st : IdState),
    countN isTocNav (assignN tag n st).1 = countN isTocNav n
  | .text _, _ => rfl
  | .elem t a cs, st => by
    by_cases ht : t = tag
    · rw [assignN, if_pos ht]
      dsimp only
      rw [countN_elem, countN_elem, isTocNav_elem, isTocNav_elem,
        getAttr_setAttr_ne "id" "class" _ (by decide) a, assignL_nav tag cs _]
    · rw [assignN, if_neg ht]
      dsimp only
      rw [countN_elem, countN_elem, isTocNav_elem, isTocNav_elem, assignL_nav tag cs st]
theorem assignL_nav (tag : String) : ∀ (l : NodeList) (st : IdState),
    countL isTocNav (assignL tag l st).1 = countL isTocNav l
  | .nil, _ => rfl
  | .cons n ns, st => by
    rw [assignL]
    dsimp only
    rw [countL, countL, assignN_nav tag n st, assignL_nav tag ns _]
end

theorem addIds_nav (doc : NodeList) :
    countL isTocNav (addIdsToHeadings doc).1 = countL isTocNav doc := by
  simp only [addIdsToHeadings]
  rw [assignL_nav, assignL_nav, assignL_nav]

mutual
theorem removeIdsN_nav (tag : String) : ∀ n : Node,
    countN isTocNav (removeIdsN tag n).1 = countN isTocNav n
  | .text _ => rfl
  | .elem t a cs => by
    rw [removeIdsN]
    by_cases hc : (t = tag && hasAttr a "id") = true
    · rw [if_pos hc]
      dsimp only
      rw [countN_elem, countN_elem, isTocNav_elem, isTocNav_elem,
        getAttr_removeAttr_ne "id" "class" (by decide) a, removeIdsL_nav tag cs]
    · rw [if_neg hc]
      dsimp only
      rw [countN_elem, countN_elem, isTocNav_elem, isTocNav_elem, removeIdsL_nav tag cs]
theorem removeIdsL_nav (tag : String) : ∀ l : NodeList,
    countL isTocNav (removeIdsL tag l).1 = countL isTocNav l
  | .nil => rfl
  | .cons n ns => by
    rw [removeIdsL]
    dsimp only
    rw [countL, countL, removeIdsN_nav tag n, removeIdsL_nav tag ns]
end

mutual
theorem removeIdsN_zero (tag : String) : ∀ n : Node,
    countN (isTagWithId tag) (removeIdsN tag n).1 = 0
  | .text _ => rfl
  | .elem t a cs => by
    rw [removeIdsN]
    by_cases hc : (t = tag && hasAttr a "id") = true
    · rw [if_pos hc]
      dsimp only
      rw [countN_elem, isTagWithId_elem, hasAttr_removeAttr "id" a]
      simp [removeIdsL_zero tag cs]
    · rw [if_neg hc]
      dsimp only
      rw [countN_elem, isTagWithId_elem]
      have hc' : (t = tag && hasAttr a "id") = false := by
        revert hc; cases (t = tag && hasAttr a "id" : Bool) <;> simp
      simp [hc', removeIdsL_zero tag cs]
theorem removeIdsL_zero (tag : String) : ∀ l : NodeList,
    countL (isTagWithId tag) (removeIdsL tag l).1 = 0
  | .nil => rfl
  | .cons n ns => by
    rw [removeIdsL]
    dsimp only
    rw [countL, removeIdsN_zero tag n, removeIdsL_zero tag ns]
end

mutual
theorem removeIdsN_other (tag tg : String) (hne : ¬(tag = tg)) : ∀ n : Node,
    countN (isTagWithId tag) (removeIdsN tg n).1 = countN (isTagWithId tag) n
  | .text _ => rfl
  | .elem t a cs => by
    rw [removeIdsN]
    by_cases hc : (t = tg && hasAttr a "id") = true
    · rw [if_pos hc]
      dsimp only
      have ht : t = tg := by
        have hc2 := hc
        simp only [Bool.and_eq_true, decide_eq_true_eq] at hc2
        exact hc2.1
      have htag : ¬(t = tag) := fun hh => hne (by rw [← hh, ht])
      rw [countN_elem, countN_elem, isTagWithId_elem, isTagWithId_elem,
        removeIdsL_other tag tg hne cs]
      simp [htag]
    · rw [if_neg hc]
      dsimp only
      rw [countN_elem, countN_elem, isTagWithId_elem, isTagWithId_elem,
        removeIdsL_other tag tg hne cs]
theorem removeIdsL_other (tag tg : String) (hne : ¬(tag = tg)) : ∀ l : NodeList,
    countL (isTagWithId tag) (removeIdsL tg l).1 = countL (isTagWithId tag) l
  | .nil => rfl
  | .cons n ns => by
    rw [removeIdsL]
    dsimp only
    rw [countL, countL, removeIdsN_other tag tg hne n, removeIdsL_other tag tg hne ns]
end

mutual
theorem removeIdsN_count (tag : String) : ∀ n : Node,
    (removeIdsN tag n).2 = countN (isTagWithId tag) n
  | .text _ => rfl
  | .elem t a cs => by
    rw [removeIdsN]
    by_cases hc : (t = tag && hasAttr a "id") = true
    · rw [if_pos hc]
      dsimp only
      rw [countN_elem, isTagWithId_elem, if_pos hc, removeIdsL_count tag cs]
      omega
    · rw [if_neg hc]
      dsimp only
      rw [countN_elem, isTagWithId_elem, if_neg hc, removeIdsL_count tag cs]
      omega
theorem removeIdsL_count (tag : String) : ∀ l : NodeList,
    (removeIdsL tag l).2 = countL (isTagWithId tag) l
  | .nil => rfl
  | .cons n ns => by
    rw [removeIdsL]
    dsimp only
    rw [countL, removeIdsN_count tag n, removeIdsL_count tag ns]
end

theorem removeIdsFromHeadings_nav (doc : NodeList) :
    countL isTocNav (removeIdsFromHeadings doc).1 = countL isTocNav doc := by
  simp only [removeIdsFromHeadings]
  rw [removeIdsL_nav, removeIdsL_nav, removeIdsL_nav]

theorem removeIdsFromHeadings_zero (doc : NodeList) :
    idHeadCount (removeIdsFromHeadings doc).1 = 0 := by
  simp only [removeIdsFromHeadings, idHeadCount]
  rw [removeIdsL_other "h2" "h4" (by decide), removeIdsL_other "h2" "h3" (by decide),
    removeIdsL_zero "h2",
    removeIdsL_other "h3" "h4" (by decide), removeIdsL_zero "h3",
    removeIdsL_zero "h4"]

theorem removeIdsFromHeadings_count (doc : NodeList) :
    (removeIdsFromHeadings doc).2 = idHeadCount doc := by
  simp only [removeIdsFromHeadings, idHeadCount]
  rw [removeIdsL_count, removeIdsL_count, removeIdsL_count,
    removeIdsL_other "h3" "h2" (by decide),
    removeIdsL_other "h4" "h3" (by decide), removeIdsL_other "h4" "h2" (by decide)]

theorem removeExistingToc_noop (doc : NodeList) (h : existsL isTocNav doc = false) :
    removeExistingToc doc = doc := by
  rw [removeExistingToc]
  have spec := removeInL_spec isTocNav childBlind_isTocNav doc
  by_cases hf : (removeInL isTocNav doc).2 = true
  · have h0 : countL isTocNav doc = 0 := countL_zero isTocNav doc h
    have := spec.1 hf
    omega
  · have hf' : (removeInL isTocNav doc).2 = false := by
      revert hf; cases (removeInL isTocNav doc).2 <;> simp
    exact (spec.2 hf').1

theorem removeExistingToc_nav (doc : NodeList) (h : countL isTocNav doc ≤ 1) :
    countL isTocNav (removeExistingToc doc) = 0 := by
  rw [removeExistingToc]
  have spec := removeInL_spec isTocNav childBlind_isTocNav doc
  by_cases hf : (removeInL isTocNav doc).2 = true
  · have := spec.1 hf
    omega
  · have hf' : (removeInL isTocNav doc).2 = false := by
      revert hf; cases (removeInL isTocNav doc).2 <;> simp
    obtain ⟨h1, h2⟩ := spec.2 hf'
    rw [h1]
    exact countL_zero isTocNav doc h2

/-- C7: strip of a document containing neither a navigation block nor an
identified in-window heading is a reported skip: success, zero identifiers
removed, the file is not rewritten and keeps its content — for any
dry-run/force combination (even forced strips return before the write when
nothing was removed). -/
theorem C7_strip_noop (doc : NodeList) (dr f : Bool)
    (h1 : existsL isTocNav doc = false) (h2 : idHeadCount doc = 0) :
    stripTocFromFile doc dr f = ⟨true, "Skipped (no TOC or IDs found)", doc, false⟩ := by
  have hrem : removeExistingToc doc = doc := removeExistingToc_noop doc h1
  simp only [stripTocFromFile, hrem, removeIdsFromHeadings_count, h1, h2]
  cases f <;> simp

/-- C7 witness: stripping the empty document (no navigation block, no
identifiers), forced, is the skip result. -/
theorem C7_strip_noop_witness :
    stripTocFromFile NodeList.nil false true =
      ⟨true, "Skipped (no TOC or IDs found)", NodeList.nil, false⟩ :=
  C7_strip_noop NodeList.nil false true (by decide) (by decide)

/-- C9: with `force` off, a document that has a navigation block and at
least one identified in-window heading is skipped (as "up-to-date" or
"already processed", depending on the timestamp outcome) with the file
untouched; with `force` on, `process_html_file` IS the unconditional
regeneration pipeline for every document and every timestamp outcome —
whatever the timestamps and markers say. -/
theorem C9_change_detector (doc : NodeList) (dr u : Bool) :
    (existsL isTocNav doc = true → 0 < idHeadCount doc →
      (processHtmlFile doc dr false u = ⟨true, "Skipped (up-to-date)", doc, false⟩ ∨
        processHtmlFile doc dr false u =
          ⟨true, "Skipped (already processed, use --force to regenerate)", doc, false⟩)) ∧
    processHtmlFile doc dr true u = regenerate doc dr := by
  constructor
  · intro hnav hid
    cases u
    · right
      simp [processHtmlFile, hnav, hid]
    · left
      simp [processHtmlFile]
  · simp [processHtmlFile]

/-- A document that looks already processed: one navigation block and one
identified heading. -/
def processedDoc : NodeList :=
  nodesOf [navNodePlain, .elem "h2" [("id", "x")] (nodesOf [.text "X"])]

/-- C9 witness at `processedDoc`: the marker skip with its hypotheses
discharged, and the force override at the same document. -/
theorem C9_change_detector_witness :
    ((processHtmlFile processedDoc false false true =
        ⟨true, "Skipped (up-to-date)", processedDoc, false⟩ ∨
      processHtmlFile processedDoc false false true =
        ⟨true, "Skipped (already processed, use --force to regenerate)", processedDoc, false⟩) ∧
      processHtmlFile processedDoc false true true = regenerate processedDoc false) :=
  ⟨(C9_change_detector processedDoc false true).1 (by decide) (by decide),
    (C9_change_detector processedDoc false true).2⟩

/-- A document whose only content is a top-level heading. -/
def h1Doc : NodeList := nodesOf [.elem "h1" [] (nodesOf [.text "T"])]

/-- C4 counterexample: `inject_toc` itself performs no
remove-existing-navigation step — calling it twice on the same document
leaves TWO `nav.table-of-contents` elements, not one.  (The removal step
lives in `process_html_file`, which calls `remove_existing_toc` before
`inject_toc`.) -/
theorem C4_counterexample :
    countL isTocNav
      (injectToc (injectToc h1Doc (some navNodePlain)).1 (some navNodePlain)).1 = 2 := by
  decide

/-- C4 (amended): the remove-existing-navigation step happens in
`process_html_file` immediately before `inject_toc`; running that
remove-then-inject pair on any document with at most one existing
navigation block (every document the pipeline itself produces) and a
surviving top-level heading leaves exactly one navigation block — so the
processing pipeline, not `inject_toc` alone, is what never duplicates the
block. -/
theorem C4_remove_then_inject (doc : NodeList) (N : Node)
    (hN : countN isTocNav N = 1) (hdoc : countL isTocNav doc ≤ 1)
    (hh1 : existsL isH1 (removeExistingToc doc) = true) :
    countL isTocNav (injectToc (removeExistingToc doc) (some N)).1 = 1 := by
  have h0 : countL isTocNav (removeExistingToc doc) = 0 := removeExistingToc_nav doc hdoc
  rw [injectToc, if_pos hh1]
  have spec := insAfterL_spec isH1 isTocNav N childBlind_isTocNav (removeExistingToc doc)
  by_cases hf : (insAfterL isH1 N (removeExistingToc doc)).2 = true
  · rw [spec.1 hf, h0, hN]
  · have hf' : (insAfterL isH1 N (removeExistingToc doc)).2 = false := by
      revert hf; cases (insAfterL isH1 N (removeExistingToc doc)).2 <;> simp
    rw [(spec.2 hf').2] at hh1
    exact absurd hh1 (by simp)

/-- C4 witness: removing then injecting on a document holding just an
`h1` yields exactly one navigation block. -/
theorem C4_remove_then_inject_witness :
    countL isTocNav (injectToc (removeExistingToc h1Doc) (some navNodePlain)).1 = 1 :=
  C4_remove_then_inject h1Doc navNodePlain (by decide) (by decide) (by decide)

theorem tocNavOf_count (s : String) :
    countN isTocNav (.elem "nav" [("class", "table-of-contents")] (.cons (.text s) .nil)) = 1 :=
  rfl

theorem injectToc_nav (d : NodeList) (nav : Node) (hn : countN isTocNav nav = 1)
    (h0 : countL isTocNav d = 0) :
    ((injectToc d (some nav)).2 = true → countL isTocNav (injectToc d (some nav)).1 = 1) ∧
    ((injectToc d (some nav)).2 = false → (injectToc d (some nav)).1 = d) := by
  rw [injectToc]
  by_cases hh : existsL isH1 d = true
  · rw [if_pos hh]
    have spec := insAfterL_spec isH1 isTocNav nav childBlind_isTocNav d
    constructor
    · intro hf
      rw [spec.1 hf, h0, hn]
    · intro hf
      exact (spec.2 hf).1
  · rw [if_neg hh]
    have spec := insBeforeTop_spec eligibleFirst isTocNav nav d
    constructor
    · intro hf
      rw [spec.1 hf, h0, hn]
    · intro hf
      exact spec.2 hf

theorem regenerate_nav (doc : NodeList) (dr : Bool) (h : countL isTocNav doc ≤ 1) :
    countL isTocNav (regenerate doc dr).doc ≤ 1 := by
  have hX : countL isTocNav (addIdsToHeadings (removeExistingToc doc)).1 = 0 := by
    rw [addIds_nav, removeExistingToc_nav doc h]
  simp only [regenerate]
  by_cases hE : ((addIdsToHeadings (removeExistingToc doc)).2.filter
      (fun r => ["h2", "h3", "h4"].contains r.level)).isEmpty = true
  · rw [if_pos hE]
    exact h
  · rw [if_neg hE]
    by_cases hs : buildTocStructure (addIdsToHeadings (removeExistingToc doc)).2 = ""
    · rw [tocNavOf, if_pos hs]
      simp only [injectToc]
      exact h
    · rw [tocNavOf, if_neg hs]
      have hinj := injectToc_nav (addIdsToHeadings (removeExistingToc doc)).1
        (.elem "nav" [("class", "table-of-contents")]
          (.cons (.text (buildTocStructure (addIdsToHeadings (removeExistingToc doc)).2)) .nil))
        (tocNavOf_count _) hX
      by_cases hf : (injectToc (addIdsToHeadings (removeExistingToc doc)).1
          (some (.elem "nav" [("class", "table-of-contents")]
            (.cons (.text (buildTocStructure (addIdsToHeadings (removeExistingToc doc)).2))
              .nil)))).2 = true
      · rw [if_pos hf]
        cases dr
        · simp [hinj.1 hf]
        · simpa using h
      · rw [if_neg hf]
        exact h

theorem stripFile_clears (d : NodeList) (h : countL isTocNav d ≤ 1) :
    countL isTocNav (stripTocFromFile d false false).doc = 0 ∧
    idHeadCount (stripTocFromFile d false false).doc = 0 := by
  simp only [stripTocFromFile]
  by_cases hT : existsL isTocNav d = true
  · simp only [hT, Bool.not_true, Bool.not_false, Bool.true_and, Bool.false_and,
      Bool.and_false, Bool.false_eq_true, if_false]
    constructor
    · rw [removeIdsFromHeadings_nav, removeExistingToc_nav d h]
    · exact removeIdsFromHeadings_zero _
  · have hT' : existsL isTocNav d = false := by
      revert hT; cases (existsL isTocNav d) <;> simp
    have h0 : countL isTocNav d = 0 := countL_zero _ _ hT'
    have hrem : removeExistingToc d = d := removeExistingToc_noop d hT'
    by_cases hI : idHeadCount d = 0
    · simp [hT', hI, h0]
    · simp only [hT', hrem, removeIdsFromHeadings_count, Bool.not_false, Bool.true_and]
      rw [if_neg (by simp [hI]), if_neg (by simp [hI])]
      simp only [Bool.false_eq_true, if_false]
      constructor
      · rw [removeIdsFromHeadings_nav, h0]
      · exact removeIdsFromHeadings_zero _

/-- A document with a top-level heading, two pre-existing navigation
blocks, and one content heading. -/
def twoNavDoc : NodeList :=
  nodesOf
    [.elem "h1" [] (nodesOf [.text "T"]),
     navNodePlain,
     .elem "nav" [("class", "table-of-contents")] (.cons (.text "y") .nil),
     .elem "h2" [] (nodesOf [.text "a"])]

set_option maxRecDepth 40000 in
/-- C6 counterexample: the claim quantifies over every document.  On a
document that already holds two navigation blocks, injecting (which
removes only the first existing block before inserting the generated one)
and then stripping (which also removes only the first block) leaves one
navigation block behind — the claimed "no nav element remains" fails. -/
theorem C6_counterexample :
    countL isTocNav
      (stripTocFromFile (regenerate twoNavDoc false).doc false false).doc = 1 := by
  decide

/-- C6 (amended): for every document with at most one existing navigation
block — which includes every document the pipeline produces or has
processed — stripping the result of injection removes the navigation
block and every identifier: afterwards no `nav.table-of-contents` node
and no identified in-window heading remains. -/
theorem C6_strip_inverse (doc : NodeList) (h : countL isTocNav doc ≤ 1) :
    countL isTocNav (stripTocFromFile (regenerate doc false).doc false false).doc = 0 ∧
    idHeadCount (stripTocFromFile (regenerate doc false).doc false false).doc = 0 :=
  stripFile_clears _ (regenerate_nav doc false h)

/-- A nav-free document with a top-level heading and one content
heading. -/
def docWithH1 : NodeList :=
  nodesOf [.elem "h1" [] (nodesOf [.text "T"]), .elem "h2" [] (nodesOf [.text "a"])]

/-- C6 witness at `docWithH1`. -/
theorem C6_strip_inverse_witness :
    countL isTocNav (stripTocFromFile (regenerate docWithH1 false).doc false false).doc = 0 ∧
    idHeadCount (stripTocFromFile (regenerate docWithH1 false).doc false false).doc = 0 :=
  C6_strip_inverse docWithH1 (by decide)

/-! ## Batch Driver file discovery: `scan_html_files` (toc.py lines 503-522) -/

/-- A file path, modelled as its component list (`pathlib` compares and
sorts paths component-wise). -/
def fileNameOf (p : List String) : String := p.getLastD ""

/-- `scan_html_files` (toc.py lines 503-522): `rglob('*.html')` yields the
files whose name matches `*.html` (in unspecified directory enumeration
order, the `files` argument); the loop drops every file named
`index.html` ("it's the main SPA file, not content"); the result is
`sorted(...)`. -/
def scanHtmlFiles (files : List (List String)) : List (List String) :=
  List.insertionSort (· ≤ ·)
    ((files.filter (fun f => strEndsWith (fileNameOf f) ".html")).filter
      (fun f => !(fileNameOf f = "index.html")))

/-- C10: file discovery returns exactly the `.html` files whose filename
is not `index.html`, in sorted (lexicographic, component-wise) order; the
batch loop iterates over precisely this list whatever the force flag, so
an `index.html` file is never handed to processing or stripping. -/
theorem C10_scan_html_files (files : List (List String)) :
    (∀ f, f ∈ scanHtmlFiles files ↔
      (f ∈ files ∧ strEndsWith (fileNameOf f) ".html" = true ∧
        ¬(fileNameOf f = "index.html"))) ∧
    List.Sorted (· ≤ ·) (scanHtmlFiles files) := by
  constructor
  · intro f
    rw [scanHtmlFiles, List.Perm.mem_iff (List.perm_insertionSort _ _)]
    simp only [List.mem_filter, Bool.not_eq_true', decide_eq_false_iff_not, and_assoc]
  · exact List.sorted_insertionSort _ _
